import Mathlib

/-!
Shallow embedding of the supervision core of `src/index.js`: a launcher
that keeps a bot child process alive with exponential-backoff restarts
and runs an independent dashboard HTTP server.

Delays are JavaScript numbers; every value reached by this program is a
small dyadic rational, so they are modelled exactly by `ℚ`.

The state carries ghost instrumentation fields (`scheduledDelays`,
`osAlive`, `activeTimers`, `spawnAttempts`, `successfulStarts`) that
record observable history — the delays passed to the restart timer, the
number of live OS child processes, the number of armed timers, and the
number of spawn attempts and of spawns that returned a handle.  They are
write-only history: no operation branches on them.

The source file `src/index.js` is truncated after line 168 (inside the
body of the `setTimeout` callback of `scheduleRestartWithBackoff`, at
the token `global.countRest`).  The definitions whose doc comments start
with `Modelled from the spec:` embed that missing tail (timer-callback
body, shutdown/signal handling) faithfully to the spec's words; all
other definitions are translated directly from the visible source.
-/

namespace Launcher

/-- Backoff configuration record, mirroring the object literal `BACKOFF`
at src/index.js lines 69-73. -/
structure BackoffConfig where
  initial : ℚ
  max : ℚ
  factor : ℚ
deriving DecidableEq

/-- The concrete configuration: initial 2000 ms, max 60000 ms, factor 1.5
(src/index.js lines 69-73). -/
def BACKOFF : BackoffConfig := { initial := 2000, max := 60000, factor := 3 / 2 }

/-- State of one child-process handle, as the launcher observes it:
`killed` is Node's `child.killed` flag (a kill signal was sent),
`exited` means the `close` event has been observed (`child.exitCode`
is no longer `null`), and `live` is ghost truth saying whether an OS
process actually came into existence and has not yet exited (false for
a handle whose spawn failed at the OS level). -/
structure ChildInfo where
  killed : Bool
  exited : Bool
  live : Bool
deriving DecidableEq

/-- Possible outcomes of one spawn attempt, abstracting the environment:
`missing` — the target script does not exist (`fs.existsSync` is false,
src/index.js line 83); `osError` — `spawn` returns a handle but the OS
fails to start the process, so a `Child Error` event follows (line 104);
`ok` — the process starts. -/
inductive SpawnOutcome
  | missing
  | osError
  | ok
deriving DecidableEq

/-- Embedding of `spawnChild` (src/index.js lines 80-113): returns `none`
when the target script is missing (lines 83-86), otherwise the freshly
wired child handle. -/
def spawnChild : SpawnOutcome → Option ChildInfo
  | .missing => none
  | .osError => some { killed := false, exited := false, live := false }
  | .ok => some { killed := false, exited := false, live := true }

/-- The aliveness guard of `startBot` (src/index.js line 121):
`child && !child.killed && child.exitCode === null`. -/
def childRunning : Option ChildInfo → Bool
  | some c => !c.killed && !c.exited
  | none => false

/-- Ghost count of live OS processes behind a handle: 1 when the handle
has a started, not-yet-exited process, else 0. -/
def childLiveCount : Option ChildInfo → ℕ
  | some c => if c.live && !c.exited then 1 else 0
  | none => 0

/-- Full mutable state of the launcher module: `child` (line 65),
`currentDelay` (line 75), `countRestart` (line 63), `restarting`
(line 66), `restartTimer` (line 160, as a pending flag), plus the
spec-modelled `shuttingDown` marker and the ghost history fields. -/
structure SupState where
  child : Option ChildInfo
  currentDelay : ℚ
  countRestart : ℕ
  restarting : Bool
  restartTimer : Bool
  shuttingDown : Bool
  scheduledDelays : List ℚ
  osAlive : ℕ
  activeTimers : ℕ
  spawnAttempts : ℕ
  successfulStarts : ℕ
deriving DecidableEq

/-- The module state right after initialisation (src/index.js lines
63-75): no child, delay at `BACKOFF.initial`, counter 0, no timer. -/
def init0 : SupState :=
  { child := none
    currentDelay := BACKOFF.initial
    countRestart := 0
    restarting := false
    restartTimer := false
    shuttingDown := false
    scheduledDelays := []
    osAlive := 0
    activeTimers := 0
    spawnAttempts := 0
    successfulStarts := 0 }

/-- Embedding of `scheduleRestartWithBackoff` (src/index.js lines
160-168): logs the delay, clears any previously armed timer
(`if (restartTimer) clearTimeout(restartTimer)`, line 164) and arms a
new one.  The delay handed to `setTimeout` is the current delay (the log
at line 163 prints `currentDelay`); it is recorded in the ghost list
`scheduledDelays`.  `activeTimers` ghost-counts armed timers: one is
cancelled when present, then one is armed. -/
def scheduleRestartWithBackoff (s : SupState) : SupState :=
  { s with
    activeTimers := (if s.restartTimer then s.activeTimers - 1 else s.activeTimers) + 1
    restartTimer := true
    scheduledDelays := s.scheduledDelays ++ [s.currentDelay] }

/-- Embedding of `startBot` (src/index.js lines 118-155): if a child is
already running the call is a logged no-op (lines 121-124); otherwise
`spawnChild` runs — on `null` a retry is scheduled with backoff (lines
128-132), on success the handle is stored and the backoff delay and
restart counter are reset (lines 134-136). -/
def startBot (o : SpawnOutcome) (s : SupState) : SupState :=
  if childRunning s.child then s
  else
    let s1 := { s with spawnAttempts := s.spawnAttempts + 1 }
    match spawnChild o with
    | none => scheduleRestartWithBackoff { s1 with child := none }
    | some c =>
      { s1 with
        child := some c
        currentDelay := BACKOFF.initial
        countRestart := 0
        osAlive := s1.osAlive + childLiveCount (some c)
        successfulStarts := s1.successfulStarts + 1 }

/-- Modelled from the spec: the update of `currentDelay` in the
truncated tail of the timer callback.  The spec contract is
`nextDelay(current) = min(current * factor, max)`; written with an
explicit conditional (the meaning of JavaScript `Math.min`). -/
def nextDelay (d : ℚ) : ℚ :=
  if d * BACKOFF.factor ≤ BACKOFF.max then d * BACKOFF.factor else BACKOFF.max

/-- Embedding of the `close` handler installed by `startBot`
(src/index.js lines 138-149): the handle's exit is recorded (its OS
process, if any, is gone), and unless the launcher is intentionally
restarting/shutting down (`restarting` flag, line 142) a restart is
scheduled with backoff (line 148). -/
def childClose (s : SupState) : SupState :=
  match s.child with
  | none => s
  | some c =>
    let s1 :=
      { s with
        child := some { c with exited := true }
        osAlive := s.osAlive - childLiveCount (some c) }
    if s.restarting then s1 else scheduleRestartWithBackoff s1

/-- Modelled from the spec: the truncated tail of the timer callback
(src/index.js lines 166-168 end at `global.countRest`).  Per the spec,
timer expiry disarms the timer (`restartTimer = null` is visible at
line 167), increments the restart counter, advances the delay by the
Backoff Policy and performs the deferred `startBot` call. -/
def timerExpire (o : SpawnOutcome) (s : SupState) : SupState :=
  startBot o
    { s with
      restartTimer := false
      activeTimers := s.activeTimers - 1
      countRestart := s.countRestart + 1
      currentDelay := nextDelay s.currentDelay }

/-- Modelled from the spec: the SIGINT/SIGTERM shutdown handler, absent
from the truncated source.  Per the spec it enters ShuttingDown, sets
the launcher's intentional-restart flag (the `restarting` flag that the
`close` handler at line 142 consults), cancels any pending restart
timer, and requests termination of a live child (which only marks the
handle `killed`; the `close` event remains the sign of actual death). -/
def shutdown (s : SupState) : SupState :=
  { s with
    shuttingDown := true
    restarting := true
    restartTimer := false
    activeTimers := if s.restartTimer then s.activeTimers - 1 else s.activeTimers
    child := s.child.map (fun c => { c with killed := true }) }

/-- Error classes of the HTTP listener (src/index.js lines 50-56):
`EACCES` is reported specially, anything else generically. -/
inductive ServerErrCode
  | eacces
  | other (msg : String)
deriving DecidableEq

/-- Embedding of the `server.on error` handler (src/index.js lines
50-56): it produces a log line (tag, message) and nothing else. -/
def handleServerError : ServerErrCode → String × String
  | .eacces => ("[ Error ]", "Permission denied. Cannot bind to port.")
  | .other msg => ("[ Error ]", "Server error: " ++ msg)

/-- Embedding of the child `error` handler (src/index.js lines 104-106):
it produces a log line and nothing else. -/
def childErrorLog (msg : String) : String × String :=
  ("[ Child Error ]", "Child process error: " ++ msg)

/-- The asynchronous events that drive the launcher: restart-timer
expiry (with the outcome the environment gives the embedded spawn),
the child `close` event, the child `error` event, a shutdown signal,
and an HTTP-listener error. -/
inductive Event
  | timerFire (o : SpawnOutcome)
  | childClose
  | childErr
  | shutdownSignal
  | serverErr (c : ServerErrCode)
deriving DecidableEq

/-- When an event can actually be delivered: a timer must be armed to
expire; `close` and `error` need an existing handle (`close` fires once,
so only for a not-yet-exited one); signals and listener errors are
always possible. -/
def enabled (s : SupState) : Event → Bool
  | .timerFire _ => s.restartTimer
  | .childClose =>
    match s.child with
    | some c => !c.exited
    | none => false
  | .childErr => s.child.isSome
  | .shutdownSignal => true
  | .serverErr _ => true

/-- One step of the launcher: each event runs its handler.  The child
`error` handler and the HTTP-listener `error` handler only log
(src/index.js lines 104-106 and 50-56), so they leave the state
unchanged. -/
def step (s : SupState) : Event → SupState
  | .timerFire o => timerExpire o s
  | .childClose => childClose s
  | .childErr => s
  | .shutdownSignal => shutdown s
  | .serverErr _ => s

/-- Run a list of events from a state. -/
def run (s : SupState) : List Event → SupState
  | [] => s
  | e :: es => run (step s e) es

/-- A trace is admissible when every event is enabled in the state where
it is delivered. -/
def enabledTrace (s : SupState) : List Event → Bool
  | [] => true
  | e :: es => enabled s e && enabledTrace (step s e) es

/-- States the launcher can actually be in: the program boots by calling
`startBot` once on the initial module state, and then evolves only by
delivery of enabled events. -/
inductive Reachable : SupState → Prop
  | boot (o : SpawnOutcome) : Reachable (startBot o init0)
  | next {s : SupState} {e : Event} :
      Reachable s → enabled s e = true → Reachable (step s e)

/-- The main inductive invariant of the launcher state: delay bounds,
agreement of the ghost OS-process count with the handle, agreement of
the ghost timer count with the pending flag, an armed timer implies the
handle is dead, the intentional-restart flag implies no armed timer,
shutting down implies the intentional-restart flag, and every delay ever
scheduled was within bounds. -/
def Inv (s : SupState) : Prop :=
  BACKOFF.initial ≤ s.currentDelay ∧
  s.currentDelay ≤ BACKOFF.max ∧
  s.osAlive = childLiveCount s.child ∧
  s.activeTimers = (if s.restartTimer then 1 else 0) ∧
  (s.restartTimer = true → childLiveCount s.child = 0 ∧ childRunning s.child = false) ∧
  (s.restarting = true → s.restartTimer = false) ∧
  (s.shuttingDown = true → s.restarting = true) ∧
  (∀ d ∈ s.scheduledDelays, BACKOFF.initial ≤ d ∧ d ≤ BACKOFF.max)

/-- Helper: the concrete configuration has its initial delay below its
maximal delay. -/
theorem initial_le_max : BACKOFF.initial ≤ BACKOFF.max := by norm_num [BACKOFF]

/-- Helper: advancing a delay that is at least the initial delay keeps
it at least the initial delay. -/
theorem initial_le_nextDelay (d : ℚ) (h : BACKOFF.initial ≤ d) :
    BACKOFF.initial ≤ nextDelay d := by
  have hf : BACKOFF.initial ≤ d * BACKOFF.factor := by
    simp only [BACKOFF] at h ⊢
    nlinarith
  unfold nextDelay
  split_ifs with hc
  · exact hf
  · exact initial_le_max

/-- Helper: the advanced delay never exceeds the maximal delay. -/
theorem nextDelay_le_max (d : ℚ) : nextDelay d ≤ BACKOFF.max := by
  unfold nextDelay
  split_ifs with hc
  · exact hc
  · exact le_refl _

/-- Helper: within the invariant bounds, advancing the delay never
decreases it. -/
theorem le_nextDelay (d : ℚ) (h1 : BACKOFF.initial ≤ d) (h2 : d ≤ BACKOFF.max) :
    d ≤ nextDelay d := by
  unfold nextDelay
  split_ifs with hc
  · have hfac : (1:ℚ) ≤ BACKOFF.factor := by norm_num [BACKOFF]
    have h0 : (0:ℚ) ≤ d := le_trans (by norm_num [BACKOFF]) h1
    nlinarith
  · exact h2

/-- Helper: the conditional form of the delay update is exactly
`min (d * factor) max`. -/
theorem nextDelay_eq_min (d : ℚ) :
    nextDelay d = min (d * BACKOFF.factor) BACKOFF.max := by
  rw [min_def]
  rfl

/-- Helper: marking a handle killed does not change the ghost count of
live OS processes. -/
theorem childLiveCount_map_kill (x : Option ChildInfo) :
    childLiveCount (x.map (fun c => { c with killed := true })) = childLiveCount x := by
  cases x <;> simp [childLiveCount]

/-- Helper: the invariant holds in every boot state. -/
theorem inv_boot (o : SpawnOutcome) : Inv (startBot o init0) := by
  cases o <;>
    simp [Inv, startBot, init0, childRunning, spawnChild, scheduleRestartWithBackoff,
      childLiveCount, BACKOFF] <;>
    norm_num

/-- Helper: arming a restart timer from a sane state (dead handle, flags
clear, delay and history in bounds) preserves the invariant. -/
theorem schedule_inv (s : SupState)
    (h1 : BACKOFF.initial ≤ s.currentDelay) (h2 : s.currentDelay ≤ BACKOFF.max)
    (h3 : s.osAlive = childLiveCount s.child)
    (h4 : s.activeTimers = if s.restartTimer then 1 else 0)
    (h5 : childLiveCount s.child = 0) (h5b : childRunning s.child = false)
    (h6 : s.restarting = false) (h7 : s.shuttingDown = false)
    (h8 : ∀ d ∈ s.scheduledDelays, BACKOFF.initial ≤ d ∧ d ≤ BACKOFF.max) :
    Inv (scheduleRestartWithBackoff s) := by
  refine ⟨h1, h2, h3, ?_, ?_, ?_, ?_, ?_⟩
  · show (if s.restartTimer then s.activeTimers - 1 else s.activeTimers) + 1
      = if (true : Bool) then 1 else 0
    cases ht : s.restartTimer <;> rw [ht] at h4 <;> simp at h4 <;> simp [h4]
  · intro _
    exact ⟨h5, h5b⟩
  · intro h
    rw [show (scheduleRestartWithBackoff s).restarting = s.restarting from rfl, h6] at h
    exact Bool.noConfusion h
  · intro h
    rw [show (scheduleRestartWithBackoff s).shuttingDown = s.shuttingDown from rfl, h7] at h
    exact Bool.noConfusion h
  · intro d hd
    rw [show (scheduleRestartWithBackoff s).scheduledDelays
      = s.scheduledDelays ++ [s.currentDelay] from rfl] at hd
    rcases List.mem_append.1 hd with hd | hd
    · exact h8 d hd
    · rw [List.mem_singleton.1 hd]
      exact ⟨h1, h2⟩

/-- Helper: every enabled event preserves the invariant. -/
theorem inv_step {s : SupState} {e : Event} (hs : Inv s) (he : enabled s e = true) :
    Inv (step s e) := by
  obtain ⟨h1, h2, h3, h4, h5, h6, h7, h8⟩ := hs
  cases e with
  | childErr => exact ⟨h1, h2, h3, h4, h5, h6, h7, h8⟩
  | serverErr c => exact ⟨h1, h2, h3, h4, h5, h6, h7, h8⟩
  | shutdownSignal =>
      refine ⟨h1, h2, ?_, ?_, ?_, ?_, ?_, ?_⟩
      · show s.osAlive = childLiveCount (s.child.map (fun c => { c with killed := true }))
        rw [childLiveCount_map_kill]
        exact h3
      · show (if s.restartTimer then s.activeTimers - 1 else s.activeTimers)
          = if (false : Bool) then 1 else 0
        cases ht : s.restartTimer <;> rw [ht] at h4 <;> simp at h4 <;> simp [h4]
      · intro h
        exact Bool.noConfusion h
      · intro _
        rfl
      · intro _
        rfl
      · exact h8
  | childClose =>
      simp only [enabled] at he
      cases hc : s.child with
      | none =>
          rw [hc] at he
          simp at he
      | some c =>
          rw [hc] at he
          simp only [Bool.not_eq_true'] at he
          simp only [step, childClose, hc]
          rcases Bool.eq_false_or_eq_true s.restarting with hb | hb
          · rw [if_pos hb]
            refine ⟨h1, h2, ?_, h4, ?_, h6, h7, h8⟩
            · show s.osAlive - childLiveCount (some c)
                = childLiveCount (some { c with exited := true })
              rw [h3, hc]
              simp [childLiveCount]
            · intro _
              exact ⟨by simp [childLiveCount], by simp [childRunning]⟩
          · rw [if_neg (by rw [hb]; exact Bool.false_ne_true)]
            refine schedule_inv _ h1 h2 ?_ h4 ?_ ?_ hb ?_ h8
            · show s.osAlive - childLiveCount (some c)
                = childLiveCount (some { c with exited := true })
              rw [h3, hc]
              simp [childLiveCount]
            · simp [childLiveCount]
            · simp [childRunning]
            · cases hbs : s.shuttingDown
              · rfl
              · rw [h7 hbs] at hb
                exact Bool.noConfusion hb
  | timerFire o =>
      simp only [enabled] at he
      obtain ⟨hlc, hrun⟩ := h5 he
      have hre : s.restarting = false := by
        cases hb : s.restarting
        · rfl
        · rw [h6 hb] at he
          exact Bool.noConfusion he
      have hsd : s.shuttingDown = false := by
        cases hb : s.shuttingDown
        · rfl
        · rw [h7 hb] at hre
          exact Bool.noConfusion hre
      have hat : s.activeTimers = 1 := by
        rw [h4, he]
        rfl
      have hd1 : BACKOFF.initial ≤ nextDelay s.currentDelay := initial_le_nextDelay _ h1
      have hd2 : nextDelay s.currentDelay ≤ BACKOFF.max := nextDelay_le_max _
      simp only [step, timerExpire, startBot, hrun, Bool.false_eq_true, if_false]
      cases o with
      | missing =>
          simp only [spawnChild]
          refine schedule_inv _ hd1 hd2 ?_ ?_ rfl rfl hre hsd h8
          · exact h3.trans hlc
          · show s.activeTimers - 1 = if (false : Bool) then 1 else 0
            rw [hat]
            decide
      | osError =>
          simp only [spawnChild]
          refine ⟨le_refl _, initial_le_max, ?_, ?_, ?_, ?_, ?_, h8⟩
          · show s.osAlive + childLiveCount (some { killed := false, exited := false, live := false })
              = childLiveCount (some { killed := false, exited := false, live := false })
            rw [h3, hlc]
            exact Nat.zero_add _
          · show s.activeTimers - 1 = if (false : Bool) then 1 else 0
            rw [hat]
            decide
          · intro h
            exact Bool.noConfusion h
          · intro _
            rfl
          · intro h
            rw [show s.shuttingDown = false from hsd] at h
            exact Bool.noConfusion h
      | ok =>
          simp only [spawnChild]
          refine ⟨le_refl _, initial_le_max, ?_, ?_, ?_, ?_, ?_, h8⟩
          · show s.osAlive + childLiveCount (some { killed := false, exited := false, live := true })
              = childLiveCount (some { killed := false, exited := false, live := true })
            rw [h3, hlc]
            exact Nat.zero_add _
          · show s.activeTimers - 1 = if (false : Bool) then 1 else 0
            rw [hat]
            decide
          · intro h
            exact Bool.noConfusion h
          · intro _
            rfl
          · intro h
            rw [show s.shuttingDown = false from hsd] at h
            exact Bool.noConfusion h

/-- Helper: the invariant holds in every reachable state. -/
theorem inv_reachable {s : SupState} (h : Reachable s) : Inv s := by
  induction h with
  | boot o => exact inv_boot o
  | next hr he ih => exact inv_step ih he

/-- Helper: timer expiry either advances the delay by the Backoff Policy
without a successful spawn, or resets it to the initial delay while
recording one more successful spawn. -/
theorem timerExpire_cases (o : SpawnOutcome) (s : SupState) :
    ((timerExpire o s).currentDelay = nextDelay s.currentDelay
      ∧ (timerExpire o s).successfulStarts = s.successfulStarts)
    ∨ ((timerExpire o s).currentDelay = BACKOFF.initial
      ∧ (timerExpire o s).successfulStarts = s.successfulStarts + 1) := by
  unfold timerExpire startBot
  split_ifs with hg
  · exact Or.inl ⟨rfl, rfl⟩
  · cases o with
    | missing => exact Or.inl ⟨rfl, rfl⟩
    | osError => exact Or.inr ⟨rfl, rfl⟩
    | ok => exact Or.inr ⟨rfl, rfl⟩

/-- Helper: the close handler never changes the delay, the counters or
the attempt history. -/
theorem childClose_frame (s : SupState) :
    (childClose s).currentDelay = s.currentDelay
    ∧ (childClose s).successfulStarts = s.successfulStarts
    ∧ (childClose s).countRestart = s.countRestart
    ∧ (childClose s).spawnAttempts = s.spawnAttempts := by
  unfold childClose
  cases s.child with
  | none => exact ⟨rfl, rfl, rfl, rfl⟩
  | some c =>
      dsimp only
      split_ifs <;> exact ⟨rfl, rfl, rfl, rfl⟩

/-- Helper: no single step ever loses a recorded successful spawn. -/
theorem step_starts_mono (s : SupState) (e : Event) :
    s.successfulStarts ≤ (step s e).successfulStarts := by
  cases e with
  | childErr => exact le_refl _
  | serverErr c => exact le_refl _
  | shutdownSignal => exact le_refl _
  | childClose => exact le_of_eq (childClose_frame s).2.1.symm
  | timerFire o =>
      rcases timerExpire_cases o s with ⟨_, hcnt⟩ | ⟨_, hcnt⟩
      · exact le_of_eq hcnt.symm
      · rw [show step s (.timerFire o) = timerExpire o s from rfl, hcnt]
        exact Nat.le_succ _

/-- Helper: no run ever loses a recorded successful spawn. -/
theorem run_starts_mono (s : SupState) (es : List Event) :
    s.successfulStarts ≤ (run s es).successfulStarts := by
  induction es generalizing s with
  | nil => exact le_refl _
  | cons e es ih => exact le_trans (step_starts_mono s e) (ih (step s e))

/-- Helper: a step that records no successful spawn never decreases the
current delay. -/
theorem step_delay_mono {s : SupState} {e : Event}
    (h1 : BACKOFF.initial ≤ s.currentDelay) (h2 : s.currentDelay ≤ BACKOFF.max)
    (hns : (step s e).successfulStarts = s.successfulStarts) :
    s.currentDelay ≤ (step s e).currentDelay := by
  cases e with
  | childErr => exact le_refl _
  | serverErr c => exact le_refl _
  | shutdownSignal => exact le_refl _
  | childClose => exact le_of_eq (childClose_frame s).1.symm
  | timerFire o =>
      rcases timerExpire_cases o s with ⟨hd, _⟩ | ⟨_, hcnt⟩
      · rw [show step s (.timerFire o) = timerExpire o s from rfl, hd]
        exact le_nextDelay _ h1 h2
      · exfalso
        rw [show step s (.timerFire o) = timerExpire o s from rfl] at hns
        rw [hcnt] at hns
        omega

/-- Helper: each step either leaves the scheduled-delay history alone or
appends exactly the delay the post-state holds. -/
theorem step_scheduled (s : SupState) (e : Event) :
    (step s e).scheduledDelays = s.scheduledDelays
    ∨ (step s e).scheduledDelays = s.scheduledDelays ++ [(step s e).currentDelay] := by
  cases e with
  | childErr => exact Or.inl rfl
  | serverErr c => exact Or.inl rfl
  | shutdownSignal => exact Or.inl rfl
  | childClose =>
      unfold step childClose
      cases s.child with
      | none => exact Or.inl rfl
      | some c =>
          dsimp only
          split_ifs
          · exact Or.inl rfl
          · exact Or.inr rfl
  | timerFire o =>
      unfold step timerExpire startBot
      split_ifs with hg
      · exact Or.inl rfl
      · cases o with
        | missing => exact Or.inr rfl
        | osError => exact Or.inl rfl
        | ok => exact Or.inl rfl

/-- Helper: along any admissible run that records no successful spawn,
the invariant is kept, the current delay never decreases, and the newly
scheduled delays form a non-decreasing segment that never goes below the
delay the run started with. -/
theorem run_no_success_mono {es : List Event} {s : SupState}
    (hInv : Inv s) (ht : enabledTrace s es = true)
    (hns : (run s es).successfulStarts = s.successfulStarts) :
    Inv (run s es) ∧ s.currentDelay ≤ (run s es).currentDelay
    ∧ ∃ t, (run s es).scheduledDelays = s.scheduledDelays ++ t
        ∧ t.Sorted (· ≤ ·) ∧ ∀ x ∈ t, s.currentDelay ≤ x := by
  induction es generalizing s with
  | nil => exact ⟨hInv, le_refl _, [], by simp [run], List.sorted_nil, by simp⟩
  | cons e es ih =>
      simp only [enabledTrace, Bool.and_eq_true] at ht
      obtain ⟨he, ht'⟩ := ht
      have hInv' := inv_step hInv he
      have m1 : s.successfulStarts ≤ (step s e).successfulStarts := step_starts_mono s e
      have m2 : (step s e).successfulStarts ≤ (run (step s e) es).successfulStarts :=
        run_starts_mono _ _
      have hrn : run s (e :: es) = run (step s e) es := rfl
      rw [hrn] at hns
      have hstep_ns : (step s e).successfulStarts = s.successfulStarts := by omega
      have hrun_ns : (run (step s e) es).successfulStarts = (step s e).successfulStarts := by
        omega
      obtain ⟨hb1, hb2, _⟩ := hInv
      have hdel : s.currentDelay ≤ (step s e).currentDelay := step_delay_mono hb1 hb2 hstep_ns
      obtain ⟨hIF, hdel', t', hteq, htsort, htge⟩ := ih hInv' ht' hrun_ns
      rw [hrn]
      rcases step_scheduled s e with hu | hu
      · refine ⟨hIF, le_trans hdel hdel', t', ?_, htsort, ?_⟩
        · rw [hteq, hu]
        · intro x hx
          exact le_trans hdel (htge x hx)
      · refine ⟨hIF, le_trans hdel hdel', (step s e).currentDelay :: t', ?_, ?_, ?_⟩
        · rw [hteq, hu, List.append_assoc, List.singleton_append]
        · rw [List.sorted_cons]
          exact ⟨htge, htsort⟩
        · intro x hx
          rcases List.mem_cons.1 hx with hx | hx
          · rw [hx]
            exact hdel
          · exact le_trans hdel (htge x hx)

/-- Helper: with the intentional-restart flag up, the close handler
keeps the flag, the timer and the attempt count, and leaves a dead
handle. -/
theorem childClose_shut {s : SupState} (hr : s.restarting = true)
    (hc : childRunning s.child = false) :
    (childClose s).restarting = true ∧ (childClose s).restartTimer = s.restartTimer
    ∧ childRunning (childClose s).child = false
    ∧ (childClose s).spawnAttempts = s.spawnAttempts := by
  unfold childClose
  cases hch : s.child with
  | none => exact ⟨hr, rfl, hc, rfl⟩
  | some c =>
      dsimp only
      rw [if_pos hr]
      refine ⟨hr, rfl, ?_, rfl⟩
      simp [childRunning]

/-- Helper: once the intentional-restart flag is up, the timer is down
and the handle is dead, one enabled step keeps it so and attempts no
spawn. -/
theorem shut_frame {s : SupState} (hr : s.restarting = true) (ht : s.restartTimer = false)
    (hc : childRunning s.child = false) {e : Event} (he : enabled s e = true) :
    (step s e).restarting = true ∧ (step s e).restartTimer = false
    ∧ childRunning (step s e).child = false
    ∧ (step s e).spawnAttempts = s.spawnAttempts := by
  cases e with
  | timerFire o =>
      rw [show enabled s (.timerFire o) = s.restartTimer from rfl, ht] at he
      exact Bool.noConfusion he
  | childErr => exact ⟨hr, ht, hc, rfl⟩
  | serverErr c => exact ⟨hr, ht, hc, rfl⟩
  | shutdownSignal =>
      refine ⟨rfl, rfl, ?_, rfl⟩
      show childRunning (s.child.map (fun c => { c with killed := true })) = false
      cases s.child with
      | none => rfl
      | some c => simp [childRunning]
  | childClose =>
      obtain ⟨q1, q2, q3, q4⟩ := childClose_shut hr hc
      exact ⟨q1, q2.trans ht, q3, q4⟩

/-- Helper: once the intentional-restart flag is up, the timer is down
and the handle is dead, no admissible run ever attempts a spawn or
revives a child. -/
theorem shut_run {s : SupState} (hr : s.restarting = true) (ht : s.restartTimer = false)
    (hc : childRunning s.child = false) {es : List Event} (he : enabledTrace s es = true) :
    (run s es).spawnAttempts = s.spawnAttempts ∧ childRunning (run s es).child = false := by
  induction es generalizing s with
  | nil => exact ⟨rfl, hc⟩
  | cons e es ih =>
      simp only [enabledTrace, Bool.and_eq_true] at he
      obtain ⟨he1, he2⟩ := he
      obtain ⟨hr1, ht1, hc1, ha1⟩ := shut_frame hr ht hc he1
      obtain ⟨ihA, ihC⟩ := ih hr1 ht1 hc1 he2
      refine ⟨?_, ihC⟩
      rw [show run s (e :: es) = run (step s e) es from rfl, ihA, ha1]

/-- Helper: the ghost live-process count of a single handle is at most
one. -/
theorem childLiveCount_le_one (x : Option ChildInfo) : childLiveCount x ≤ 1 := by
  cases x with
  | none => exact Nat.zero_le _
  | some c =>
      show (if (c.live && !c.exited) = true then 1 else 0) ≤ 1
      split_ifs <;> omega

/-- Helper: a timer expiry on a failed-spawn outcome always increments
the restart counter by exactly one. -/
theorem timerExpire_missing_count (s : SupState) :
    (timerExpire .missing s).countRestart = s.countRestart + 1 := by
  unfold timerExpire startBot
  split_ifs with hg
  · rfl
  · rfl

/-- Helper: timer expiry either increments the restart counter without a
successful spawn, or zeroes it while recording a successful spawn. -/
theorem timerExpire_count (o : SpawnOutcome) (s : SupState) :
    ((timerExpire o s).countRestart = s.countRestart + 1
      ∧ (timerExpire o s).successfulStarts = s.successfulStarts)
    ∨ ((timerExpire o s).countRestart = 0
      ∧ (timerExpire o s).successfulStarts = s.successfulStarts + 1) := by
  unfold timerExpire startBot
  split_ifs with hg
  · exact Or.inl ⟨rfl, rfl⟩
  · cases o with
    | missing => exact Or.inl ⟨rfl, rfl⟩
    | osError => exact Or.inr ⟨rfl, rfl⟩
    | ok => exact Or.inr ⟨rfl, rfl⟩

/-- C1 counterexample: after a successful boot, three consecutive
abnormal exits of successfully respawned children schedule restarts at
2000, 2000, 2000 ms — not 2000, 3000, 4500 ms — because `startBot`
resets the delay on every successful spawn (src/index.js line 135). -/
theorem backoff_consecutive_exit_delays_counterexample :
    enabledTrace (startBot .ok init0)
      [Event.childClose, .timerFire .ok, .childClose, .timerFire .ok, .childClose] = true
    ∧ (run (startBot .ok init0)
        [Event.childClose, .timerFire .ok, .childClose, .timerFire .ok,
          .childClose]).scheduledDelays = [2000, 2000, 2000]
    ∧ ([2000, 2000, 2000] : List ℚ) ≠ [2000, 3000, 4500] := by
  refine ⟨rfl, rfl, ?_⟩
  norm_num

/-- C1 (amended): the Backoff Policy advance is exactly
min(current * factor, max) with initial 2000 ms, factor 1.5 and max
60000 ms, and delays never exceed 60000; the scheduled delays 2000,
3000, 4500 arise for three consecutive failed spawn attempts (no
intervening spawn that returns a handle) — not for consecutive abnormal
exits of successfully spawned children, where the per-spawn reset pins
every scheduled delay at 2000. -/
theorem backoff_policy_delay_growth :
    (∀ d : ℚ, nextDelay d = min (d * BACKOFF.factor) BACKOFF.max)
    ∧ BACKOFF.initial = 2000 ∧ BACKOFF.factor = 3 / 2 ∧ BACKOFF.max = 60000
    ∧ (∀ d : ℚ, nextDelay d ≤ 60000)
    ∧ enabledTrace (startBot .ok init0)
        [Event.childClose, .timerFire .missing, .timerFire .missing] = true
    ∧ (run (startBot .ok init0)
        [Event.childClose, .timerFire .missing, .timerFire .missing]).scheduledDelays
      = [2000, 3000, 4500] := by
  refine ⟨nextDelay_eq_min, rfl, rfl, rfl, ?_, rfl, ?_⟩
  · intro d
    have h := nextDelay_le_max d
    rw [show BACKOFF.max = 60000 from rfl] at h
    exact h
  · have e1 : nextDelay 2000 = 3000 := by
      unfold nextDelay BACKOFF
      norm_num
    have e2 : nextDelay 3000 = 4500 := by
      unfold nextDelay BACKOFF
      norm_num
    show ((([] ++ [BACKOFF.initial]) ++ [nextDelay BACKOFF.initial])
        ++ [nextDelay (nextDelay BACKOFF.initial)]) = [2000, 3000, 4500]
    rw [show BACKOFF.initial = (2000 : ℚ) from rfl, e1, e2]
    rfl

/-- C2: in every reachable launcher state the current delay and every
delay ever handed to the restart timer lie within
[BACKOFF.initial, BACKOFF.max]; and along any admissible run in which no
spawn returns a handle (no successful run intervenes), the newly
scheduled restart delays form a monotonically non-decreasing segment. -/
theorem restart_delay_bounds_and_monotone :
    (∀ s : SupState, Reachable s →
      (BACKOFF.initial ≤ s.currentDelay ∧ s.currentDelay ≤ BACKOFF.max)
      ∧ ∀ d ∈ s.scheduledDelays, BACKOFF.initial ≤ d ∧ d ≤ BACKOFF.max)
    ∧ ∀ (s : SupState) (es : List Event), Reachable s → enabledTrace s es = true →
        (run s es).successfulStarts = s.successfulStarts →
        ∃ t, (run s es).scheduledDelays = s.scheduledDelays ++ t ∧ t.Sorted (· ≤ ·) := by
  constructor
  · intro s hs
    obtain ⟨h1, h2, _, _, _, _, _, h8⟩ := inv_reachable hs
    exact ⟨⟨h1, h2⟩, h8⟩
  · intro s es hs ht hns
    obtain ⟨_, _, t, hteq, htsort, _⟩ := run_no_success_mono (inv_reachable hs) ht hns
    exact ⟨t, hteq, htsort⟩

/-- C2 witness: the bounds and the monotone segment at the booted state
and a single child exit. -/
theorem restart_delay_bounds_and_monotone_witness :
    ((BACKOFF.initial ≤ (startBot .ok init0).currentDelay
        ∧ (startBot .ok init0).currentDelay ≤ BACKOFF.max)
      ∧ ∀ d ∈ (startBot .ok init0).scheduledDelays,
          BACKOFF.initial ≤ d ∧ d ≤ BACKOFF.max)
    ∧ ∃ t, (run (startBot .ok init0) [Event.childClose]).scheduledDelays
        = (startBot .ok init0).scheduledDelays ++ t ∧ t.Sorted (· ≤ ·) :=
  ⟨restart_delay_bounds_and_monotone.1 _ (Reachable.boot .ok),
    restart_delay_bounds_and_monotone.2 _ [Event.childClose] (Reachable.boot .ok) rfl rfl⟩

/-- C3: whenever `spawnChild` returns a handle (the spawn attempt does
not immediately fail) and no child was running, `startBot` resets the
current delay to the initial delay — and even if that child closes
immediately afterwards, the restart it triggers is scheduled at the
initial delay. -/
theorem reset_delay_on_successful_spawn (s : SupState) (o : SpawnOutcome) (c : ChildInfo)
    (hc : spawnChild o = some c) (hr : childRunning s.child = false)
    (hnr : s.restarting = false) :
    (startBot o s).currentDelay = BACKOFF.initial
    ∧ enabled (startBot o s) .childClose = true
    ∧ (step (startBot o s) .childClose).scheduledDelays
      = s.scheduledDelays ++ [BACKOFF.initial] := by
  cases o with
  | missing => exact absurd hc (by simp [spawnChild])
  | osError =>
      refine ⟨?_, ?_, ?_⟩
      · simp [startBot, hr, spawnChild]
      · simp [startBot, hr, spawnChild, enabled]
      · simp [step, startBot, hr, spawnChild, childClose, hnr, scheduleRestartWithBackoff]
  | ok =>
      refine ⟨?_, ?_, ?_⟩
      · simp [startBot, hr, spawnChild]
      · simp [startBot, hr, spawnChild, enabled]
      · simp [step, startBot, hr, spawnChild, childClose, hnr, scheduleRestartWithBackoff]

/-- C3 witness: the reset at the initial boot with an immediately
crashing child. -/
theorem reset_delay_on_successful_spawn_witness :
    (startBot .ok init0).currentDelay = BACKOFF.initial
    ∧ enabled (startBot .ok init0) .childClose = true
    ∧ (step (startBot .ok init0) .childClose).scheduledDelays
      = init0.scheduledDelays ++ [BACKOFF.initial] :=
  reset_delay_on_successful_spawn init0 .ok
    { killed := false, exited := false, live := true } rfl rfl rfl

/-- C4: a spawn failure is never raised to the caller of `startBot`; a
missing target schedules a deferred retry with backoff at once (arming
the restart timer, so a further attempt is enabled), and an OS-level
spawn failure is absorbed by the logging `error` handler and then
handled by the `close` event exactly like an abnormal exit, again
scheduling a retry. -/
theorem spawn_failure_schedules_retry (s : SupState)
    (hr : childRunning s.child = false) (hnr : s.restarting = false) :
    ((startBot .missing s).restartTimer = true
      ∧ (startBot .missing s).scheduledDelays = s.scheduledDelays ++ [s.currentDelay]
      ∧ (startBot .missing s).child = none
      ∧ ∀ o, enabled (startBot .missing s) (.timerFire o) = true)
    ∧ (∀ msg, (childErrorLog msg).1 = "[ Child Error ]")
    ∧ enabled (startBot .osError s) .childErr = true
    ∧ step (startBot .osError s) .childErr = startBot .osError s
    ∧ enabled (startBot .osError s) .childClose = true
    ∧ (step (startBot .osError s) .childClose).restartTimer = true
    ∧ (step (startBot .osError s) .childClose).scheduledDelays
      = s.scheduledDelays ++ [BACKOFF.initial] := by
  refine ⟨⟨?_, ?_, ?_, ?_⟩, fun msg => rfl, ?_, rfl, ?_, ?_, ?_⟩
  · simp [startBot, hr, spawnChild, scheduleRestartWithBackoff]
  · simp [startBot, hr, spawnChild, scheduleRestartWithBackoff]
  · simp [startBot, hr, spawnChild, scheduleRestartWithBackoff]
  · intro o
    simp [startBot, hr, spawnChild, scheduleRestartWithBackoff, enabled]
  · simp [startBot, hr, spawnChild, enabled]
  · simp [startBot, hr, spawnChild, enabled]
  · simp [step, startBot, hr, spawnChild, childClose, hnr, scheduleRestartWithBackoff]
  · simp [step, startBot, hr, spawnChild, childClose, hnr, scheduleRestartWithBackoff]

/-- C4 witness: both failure modes at the pristine state. -/
theorem spawn_failure_schedules_retry_witness :
    ((startBot .missing init0).restartTimer = true
      ∧ (startBot .missing init0).scheduledDelays
        = init0.scheduledDelays ++ [init0.currentDelay]
      ∧ (startBot .missing init0).child = none
      ∧ ∀ o, enabled (startBot .missing init0) (.timerFire o) = true)
    ∧ (∀ msg, (childErrorLog msg).1 = "[ Child Error ]")
    ∧ enabled (startBot .osError init0) .childErr = true
    ∧ step (startBot .osError init0) .childErr = startBot .osError init0
    ∧ enabled (startBot .osError init0) .childClose = true
    ∧ (step (startBot .osError init0) .childClose).restartTimer = true
    ∧ (step (startBot .osError init0) .childClose).scheduledDelays
      = init0.scheduledDelays ++ [BACKOFF.initial] :=
  spawn_failure_schedules_retry init0 rfl rfl

/-- C5: invoking shutdown while a restart timer is pending and no child
is running cancels the pending timer (the armed-timer count drops by
one), and along every admissible continuation no spawn is ever attempted
and no child is ever running again — in whatever order later child-exit
events and further shutdown signals arrive. -/
theorem shutdown_cancels_timer_no_spawn (s : SupState)
    (hp : s.restartTimer = true) (hc : childRunning s.child = false) :
    (shutdown s).restartTimer = false
    ∧ (shutdown s).activeTimers = s.activeTimers - 1
    ∧ ∀ es, enabledTrace (shutdown s) es = true →
        (run (shutdown s) es).spawnAttempts = s.spawnAttempts
        ∧ childRunning (run (shutdown s) es).child = false := by
  refine ⟨rfl, ?_, ?_⟩
  · show (if s.restartTimer then s.activeTimers - 1 else s.activeTimers) = s.activeTimers - 1
    rw [if_pos hp]
  · intro es ht
    have hc2 : childRunning (shutdown s).child = false := by
      show childRunning (s.child.map (fun c => { c with killed := true })) = false
      cases s.child with
      | none => rfl
      | some c => simp [childRunning]
    have h := shut_run rfl rfl hc2 ht
    exact ⟨h.1, h.2⟩

/-- C5 witness: shutdown right after a failed spawn armed the timer. -/
theorem shutdown_cancels_timer_no_spawn_witness :
    (shutdown (startBot .missing init0)).restartTimer = false
    ∧ (run (shutdown (startBot .missing init0)) [Event.shutdownSignal]).spawnAttempts
      = (startBot .missing init0).spawnAttempts :=
  ⟨(shutdown_cancels_timer_no_spawn (startBot .missing init0) rfl rfl).1,
    ((shutdown_cancels_timer_no_spawn (startBot .missing init0) rfl rfl).2.2
      [Event.shutdownSignal] rfl).1⟩

/-- C6 counterexample: the restart counter is not monotone over a run —
after two failed retries it stands at 2, and the next timer expiry with
a successful spawn resets it to 0 (src/index.js line 136), a plain
supervisor operation, not a launcher restart. -/
theorem restart_counter_reset_counterexample :
    enabledTrace (startBot .ok init0)
      [Event.childClose, .timerFire .missing, .timerFire .missing] = true
    ∧ (run (startBot .ok init0)
        [Event.childClose, .timerFire .missing, .timerFire .missing]).countRestart = 2
    ∧ enabled (run (startBot .ok init0)
        [Event.childClose, .timerFire .missing, .timerFire .missing]) (.timerFire .ok) = true
    ∧ (step (run (startBot .ok init0)
        [Event.childClose, .timerFire .missing, .timerFire .missing])
        (.timerFire .ok)).countRestart = 0 :=
  ⟨rfl, rfl, rfl, rfl⟩

/-- C6 (amended): the restart counter is monotone across every enabled
step that records no successful spawn — exit handling, restart
scheduling, shutdown and listener errors never reset it, and each
backoff-timer expiry with a failed spawn increments it by one — but
`startBot` zeroes it on every spawn that returns a handle, so it is
reset on each successful start rather than only by a full launcher
restart. -/
theorem restart_counter_increment_and_reset :
    (∀ (s : SupState) (e : Event), enabled s e = true →
        (step s e).successfulStarts = s.successfulStarts →
        s.countRestart ≤ (step s e).countRestart)
    ∧ (∀ (s : SupState) (o : SpawnOutcome) (c : ChildInfo), spawnChild o = some c →
        childRunning s.child = false → (startBot o s).countRestart = 0)
    ∧ (∀ s : SupState, (step s (.timerFire .missing)).countRestart = s.countRestart + 1) := by
  refine ⟨?_, ?_, fun s => timerExpire_missing_count s⟩
  · intro s e he hns
    cases e with
    | childErr => exact le_refl _
    | serverErr c => exact le_refl _
    | shutdownSignal => exact le_refl _
    | childClose => exact le_of_eq (childClose_frame s).2.2.1.symm
    | timerFire o =>
        rcases timerExpire_count o s with ⟨hcnt, _⟩ | ⟨_, hst⟩
        · rw [show step s (.timerFire o) = timerExpire o s from rfl, hcnt]
          exact Nat.le_succ _
        · exfalso
          rw [show step s (.timerFire o) = timerExpire o s from rfl, hst] at hns
          omega
  · intro s o c hc hr
    cases o with
    | missing => exact absurd hc (by simp [spawnChild])
    | osError => simp [startBot, hr, spawnChild]
    | ok => simp [startBot, hr, spawnChild]

/-- C6 amended witness: monotonicity across a close event, the reset on
a successful boot spawn, and the increment on a failed-spawn expiry. -/
theorem restart_counter_increment_and_reset_witness :
    (startBot .ok init0).countRestart ≤ (step (startBot .ok init0) .childClose).countRestart
    ∧ (startBot .ok init0).countRestart = 0
    ∧ (step init0 (.timerFire .missing)).countRestart = init0.countRestart + 1 :=
  ⟨restart_counter_increment_and_reset.1 _ .childClose rfl rfl,
    restart_counter_increment_and_reset.2.1 init0 .ok
      { killed := false, exited := false, live := true } rfl rfl,
    restart_counter_increment_and_reset.2.2 init0⟩

/-- C7: when a child is already running, `startBot` is a complete no-op:
the whole state — child handle, current delay, restart counter, timer
and all history — is returned unchanged, and no spawn is attempted. -/
theorem start_noop_when_child_running (s : SupState) (o : SpawnOutcome)
    (h : childRunning s.child = true) : startBot o s = s := by
  unfold startBot
  rw [if_pos h]

/-- C7 witness: a running child at the pristine state. -/
theorem start_noop_when_child_running_witness :
    startBot .ok
        { init0 with child := some { killed := false, exited := false, live := true } }
      = { init0 with child := some { killed := false, exited := false, live := true } } :=
  start_noop_when_child_running _ .ok rfl

/-- C8: in every reachable launcher state at most one OS child process
behind the handle is alive, whatever order start calls, exit events and
shutdown requests occurred in. -/
theorem at_most_one_live_child (s : SupState) (h : Reachable s) : s.osAlive ≤ 1 := by
  obtain ⟨_, _, h3, _⟩ := inv_reachable h
  rw [h3]
  exact childLiveCount_le_one s.child

/-- C8 witness: the booted state. -/
theorem at_most_one_live_child_witness : (startBot .ok init0).osAlive ≤ 1 :=
  at_most_one_live_child _ (Reachable.boot .ok)

/-- C9: an HTTP-listener error is always accepted, is answered by the
logging handler (tagged as an error, for both the permission-denied and
the generic class), leaves the supervisor state untouched, and changes
the enabledness of no supervision event — the restart loop keeps
running and the launcher does not terminate. -/
theorem server_error_keeps_supervisor :
    ∀ (s : SupState) (c : ServerErrCode),
      enabled s (.serverErr c) = true
      ∧ step s (.serverErr c) = s
      ∧ (handleServerError c).1 = "[ Error ]"
      ∧ ∀ e, enabled (step s (.serverErr c)) e = enabled s e := by
  intro s c
  refine ⟨rfl, rfl, ?_, fun e => rfl⟩
  cases c <;> rfl

/-- C10: in every reachable launcher state at most one restart timer is
armed, and (re)scheduling always first cancels any armed timer before
arming the new one, leaving exactly one. -/
theorem at_most_one_restart_timer (s : SupState) (h : Reachable s) :
    s.activeTimers ≤ 1
    ∧ (scheduleRestartWithBackoff s).activeTimers = 1
    ∧ (scheduleRestartWithBackoff s).restartTimer = true := by
  obtain ⟨_, _, _, h4, _⟩ := inv_reachable h
  refine ⟨?_, ?_, rfl⟩
  · rw [h4]
    split_ifs <;> omega
  · show (if s.restartTimer then s.activeTimers - 1 else s.activeTimers) + 1 = 1
    cases ht : s.restartTimer <;> rw [ht] at h4 <;> simp at h4 <;> simp [h4]

/-- C10 witness: the booted state. -/
theorem at_most_one_restart_timer_witness :
    (startBot .ok init0).activeTimers ≤ 1
    ∧ (scheduleRestartWithBackoff (startBot .ok init0)).activeTimers = 1
    ∧ (scheduleRestartWithBackoff (startBot .ok init0)).restartTimer = true :=
  at_most_one_restart_timer _ (Reachable.boot .ok)

end Launcher
